import Mathlib

/-!
# Verification of `UI/inputTable.py` (pychemqt)

Shallow embedding of the dialog widgets in `UI/inputTable.py`:
`eqDIPPR` (DIPPR equation selector), `InputTableWidget` (tabular data
entry with load/save/clear) and `InputTableDialog` (modal wrapper).

Qt widgets are modelled by their documented semantics (`QSpinBox`
clamps values into its range, `setRange` re-clamps the current value,
`valueChanged` fires only when the stored value actually changes).
Strings that travel through files are modelled as `List Char` so the
byte-level file format can be reasoned about; `numpy.loadtxt` is
modelled by its documented behaviour (strip `#` comments, skip blank
lines, split on whitespace runs, convert every token, reject ragged
rows).
-/

/-- File-content strings are lists of characters. -/
abbrev Str := List Char

/-! ## Qt spin box

Model of `QtWidgets.QSpinBox`: a Qt spin box stores a minimum, a
maximum and a current value; a fresh spin box has range 0..99 and
value 0; `setValue` clamps its argument into the current range;
`setRange` installs new bounds and re-clamps the stored value.  -/

structure SpinBox where
  minimum : Int
  maximum : Int
  value : Int
  deriving Repr, DecidableEq

/-- A freshly constructed `QSpinBox`: range 0..99, value 0. -/
def SpinBox.mk0 : SpinBox := ⟨0, 99, 0⟩

/-- Clamp `v` into `[lo, hi]` (Qt `qBound`). -/
def clampInt (lo hi v : Int) : Int := max lo (min hi v)

/-- `QSpinBox.setValue`: the stored value is the argument clamped into
the current range. -/
def SpinBox.setValue (s : SpinBox) (v : Int) : SpinBox :=
  { s with value := clampInt s.minimum s.maximum v }

/-- `QSpinBox.setRange`: install new bounds; the stored value is
re-clamped into the new range. -/
def SpinBox.setRange (s : SpinBox) (lo hi : Int) : SpinBox :=
  ⟨lo, hi, clampInt lo hi s.value⟩

/-! ## `eqDIPPR` widget

`eqDIPPR.__init__(value)` builds a spin box, calls `setValue(value)`
first and `setRange(1, 9)` after (source order), so the initial value
is clamped first into the default 0..99 range and then into 1..9. -/

structure EqDIPPR where
  /-- the embedded spin box, field `self.eqDIPPR` in the source -/
  spin : SpinBox
  deriving Repr, DecidableEq

/-- `eqDIPPR.__init__`: `self.eqDIPPR.setValue(value)` then
`self.eqDIPPR.setRange(1, 9)`. -/
def EqDIPPR.init (value : Int) : EqDIPPR :=
  ⟨(SpinBox.mk0.setValue value).setRange 1 9⟩

/-- `eqDIPPR.setValue`: delegates to the spin box. -/
def EqDIPPR.setValue (e : EqDIPPR) (v : Int) : EqDIPPR :=
  ⟨e.spin.setValue v⟩

/-- The `value` property of `eqDIPPR`.  The source reads
`return self.eqDIPPR.value` without call parentheses, so the property
yields the *bound method* `QSpinBox.value` — a zero-argument callable —
rather than the integer it would return.  Modelled as a function
`Unit → Int`. -/
def EqDIPPR.value (e : EqDIPPR) : Unit → Int :=
  fun _ => e.spin.value

/-- Apply a sequence of `setValue` calls. -/
def EqDIPPR.applyAll (e : EqDIPPR) : List Int → EqDIPPR
  | [] => e
  | v :: vs => (e.setValue v).applyAll vs

/-- Range invariant of the `eqDIPPR` spin box after construction. -/
def EqDIPPR.inv (e : EqDIPPR) : Prop :=
  e.spin.minimum = 1 ∧ e.spin.maximum = 9 ∧ 1 ≤ e.spin.value ∧ e.spin.value ≤ 9

lemma clampInt_mem (lo hi v : Int) (h : lo ≤ hi) :
    lo ≤ clampInt lo hi v ∧ clampInt lo hi v ≤ hi := by
  unfold clampInt
  constructor
  · exact le_max_left _ _
  · exact max_le h (min_le_left _ _)

lemma EqDIPPR.init_inv (v : Int) : (EqDIPPR.init v).inv := by
  have h := clampInt_mem 1 9 ((SpinBox.mk0.setValue v).value) (by norm_num)
  exact ⟨rfl, rfl, h.1, h.2⟩

lemma EqDIPPR.setValue_inv (e : EqDIPPR) (he : e.inv) (v : Int) :
    (e.setValue v).inv := by
  obtain ⟨h1, h2, _, _⟩ := he
  have h := clampInt_mem e.spin.minimum e.spin.maximum v (by rw [h1, h2]; norm_num)
  exact ⟨h1, h2, by simpa [EqDIPPR.setValue, SpinBox.setValue, h1] using h.1,
    by simpa [EqDIPPR.setValue, SpinBox.setValue, h2] using h.2⟩

lemma EqDIPPR.applyAll_inv (e : EqDIPPR) (he : e.inv) (vs : List Int) :
    (e.applyAll vs).inv := by
  induction vs generalizing e with
  | nil => exact he
  | cons v vs ih => exact ih _ (e.setValue_inv he v)

/-- **C6.** The DIPPR equation selector only ever holds an index in
1..9: after construction of `eqDIPPR` with any initial value and any
sequence of subsequent `setValue` calls with arbitrary integers, the
spin box's current value lies in 1..9 inclusive. -/
theorem claim_C6 (v0 : Int) (vs : List Int) :
    1 ≤ ((EqDIPPR.init v0).applyAll vs).spin.value ∧
      ((EqDIPPR.init v0).applyAll vs).spin.value ≤ 9 := by
  have h := EqDIPPR.applyAll_inv _ (EqDIPPR.init_inv v0) vs
  exact ⟨h.2.2.1, h.2.2.2⟩

/-! ## `Tabla` and `InputTableWidget` -/

/-- Modelled from the spec: the reusable table-grid widget `Tabla`
(defined in `UI/widgets`, an external collaborator that the spec keeps
out of scope, calling it "a generic tabular data-entry widget"): a
grid holding data rows of cell values, a column count and the
horizontal header texts.  `getData` returns the data rows and
`setData` replaces them; `setRowCount(0)` plus `clearContents`
empties the grid, and `addRow` appends a blank editing row that
carries no data. -/
structure Tabla (α : Type) where
  columnCount : Nat
  horizontalHeader : List Str
  rows : List (List α)
  deriving Repr, DecidableEq

/-- `Tabla.getData`: the data rows currently held. -/
def Tabla.getData (t : Tabla α) : List (List α) := t.rows

/-- `Tabla.setData`: replace the data rows. -/
def Tabla.setData (t : Tabla α) (d : List (List α)) : Tabla α :=
  { t with rows := d }

/-- `Tabla.setRowCount(0)` followed by `clearContents`: the grid is
emptied. -/
def Tabla.clearAll (t : Tabla α) : Tabla α :=
  { t with rows := [] }

/-- `Tabla.addRow`: append a blank editing row; it carries no data. -/
def Tabla.addRow (t : Tabla α) : Tabla α := t

/-- State of `InputTableWidget`: the embedded `Tabla`, the window
title, and — when the widget was built with `DIPPR=True` — the DIPPR
spin box together with the visibility of the `labelTc` label and the
`tc` entry widget. -/
structure InputTableWidget (α : Type) where
  columnas : Nat
  title : Str
  tabla : Tabla α
  eqSpin : SpinBox
  labelTcVisible : Bool
  tcVisible : Bool
  deriving Repr, DecidableEq

/-- `InputTableWidget.showTc(value)`:
`self.labelTc.setVisible(value in (7, 9))` and
`self.tc.setVisible(value in (7, 9))`. -/
def InputTableWidget.showTc (w : InputTableWidget α) (value : Int) :
    InputTableWidget α :=
  { w with labelTcVisible := value == 7 || value == 9,
           tcVisible := value == 7 || value == 9 }

/-- `InputTableWidget.__init__` with `DIPPR=True`: the `Tabla` is
built with `columnas` columns and the given headers and filled with
`data` when non-empty; the `eqDIPPR` widget is built from `eq`; the
`valueChanged` signal is connected to `showTc`; finally the source
executes `self.showTc(1)` with the literal value 1. -/
def InputTableWidget.initDIPPR (columnas : Nat) (data : List (List α))
    (horizontalHeader : List Str) (title : Str) (eq : Int) :
    InputTableWidget α :=
  let w : InputTableWidget α :=
    { columnas := columnas
      title := title
      tabla := ⟨columnas, horizontalHeader, data⟩
      eqSpin := (EqDIPPR.init eq).spin
      labelTcVisible := true
      tcVisible := true }
  w.showTc 1

/-- A user change of the DIPPR spin box to `v`: Qt clamps `v` into the
range, and emits `valueChanged` — which is connected to `showTc` —
only when the stored value actually changes. -/
def InputTableWidget.changeEq (w : InputTableWidget α) (v : Int) :
    InputTableWidget α :=
  let s := w.eqSpin.setValue v
  if s.value = w.eqSpin.value then { w with eqSpin := s }
  else ({ w with eqSpin := s }).showTc s.value

/-- **C1.** For every value passed to `showTc`, after the call the Tc
label is visible if and only if the value is 7 or 9, and likewise the
Tc entry — so for every other value, in particular the rest of 1..9,
each of the two widgets is hidden. -/
theorem claim_C1 {α : Type} (w : InputTableWidget α) (value : Int) :
    ((w.showTc value).labelTcVisible = true ↔
      (value = 7 ∨ value = 9)) ∧
    ((w.showTc value).tcVisible = true ↔
      (value = 7 ∨ value = 9)) := by
  constructor <;> simp [InputTableWidget.showTc]

/-- **C2, counterexample.** Constructing `InputTableWidget` with
`DIPPR=True` and initial equation index 7 refutes the claim: the
source ends `__init__` with `showTc(1)`, so the Tc label and entry
are hidden immediately after construction although `eq = 7`. -/
theorem claim_C2_cex :
    ¬ ((((InputTableWidget.initDIPPR (α := Unit) 2 [] [] [] 7).labelTcVisible
            = true ∧
          (InputTableWidget.initDIPPR (α := Unit) 2 [] [] [] 7).tcVisible
            = true)) ↔
        ((7 : Int) = 7 ∨ (7 : Int) = 9)) := by
  decide

/-- **C2, amended.** After every construction with `DIPPR=True` the Tc
label and entry are hidden regardless of the initial equation index
(`__init__` calls `showTc` with the fixed value 1); every subsequent
spin-box change that actually alters the stored value sets both
visibilities to "current value is 7 or 9", and a change that leaves
the stored value unchanged emits no signal and leaves both
visibilities unchanged. -/
theorem claim_C2 {α : Type} (columnas : Nat) (data : List (List α))
    (hh : List Str) (title : Str) (eq : Int)
    (w : InputTableWidget α) (v : Int) :
    ((InputTableWidget.initDIPPR columnas data hh title eq).labelTcVisible
        = false ∧
      (InputTableWidget.initDIPPR columnas data hh title eq).tcVisible
        = false)
    ∧ ((w.changeEq v).eqSpin.value ≠ w.eqSpin.value →
        (((w.changeEq v).labelTcVisible = true ↔
          ((w.changeEq v).eqSpin.value = 7 ∨
            (w.changeEq v).eqSpin.value = 9)) ∧
         ((w.changeEq v).tcVisible = true ↔
          ((w.changeEq v).eqSpin.value = 7 ∨
            (w.changeEq v).eqSpin.value = 9))))
    ∧ ((w.changeEq v).eqSpin.value = w.eqSpin.value →
        (w.changeEq v).labelTcVisible = w.labelTcVisible ∧
          (w.changeEq v).tcVisible = w.tcVisible) := by
  refine ⟨⟨rfl, rfl⟩, ?_, ?_⟩ <;>
    · intro h
      unfold InputTableWidget.changeEq at *
      by_cases hc : (w.eqSpin.setValue v).value = w.eqSpin.value <;>
        simp [hc, InputTableWidget.showTc] at h ⊢

/-- **C2, witness.** Concrete instance: construction with `eq = 1`
leaves the Tc widgets hidden; changing the spin box to 7 alters the
stored value and makes both visible. -/
theorem claim_C2_witness :
    ((InputTableWidget.initDIPPR (α := Unit) 2 [] [] [] 1).labelTcVisible
        = false ∧
      (InputTableWidget.initDIPPR (α := Unit) 2 [] [] [] 1).tcVisible
        = false)
    ∧ (((InputTableWidget.initDIPPR (α := Unit) 2 [] [] [] 1).changeEq
          7).labelTcVisible = true ∧
        ((InputTableWidget.initDIPPR (α := Unit) 2 [] [] [] 1).changeEq
          7).tcVisible = true) := by
  have h := claim_C2 (α := Unit) 2 [] [] [] 1
    (InputTableWidget.initDIPPR 2 [] [] [] 1) 7
  refine ⟨h.1, ?_⟩
  have hne : ((InputTableWidget.initDIPPR (α := Unit) 2 [] [] [] 1).changeEq
      7).eqSpin.value ≠
      (InputTableWidget.initDIPPR (α := Unit) 2 [] [] [] 1).eqSpin.value := by
    decide
  have h7 : ((InputTableWidget.initDIPPR (α := Unit) 2 [] [] [] 1).changeEq
      7).eqSpin.value = 7 := by decide
  exact ⟨((h.2.1 hne).1).mpr (Or.inl h7), ((h.2.1 hne).2).mpr (Or.inl h7)⟩

/-! ## Saving: `InputTableWidget.save` -/

/-- The text `InputTableWidget.save` writes once a file name has been
chosen: `#` + title + newline; `#` + each of the `columnCount` header
texts each followed by a tab, then a newline; then one line per data
row with each of the `columnCount` cells rendered by Python `str`
(parameter `render`) and followed by a tab.  The source iterates
columns by position (`range(self.tabla.columnCount())`), modelled
with `List.getD`. -/
def InputTableWidget.saveText [Inhabited α] (render : α → Str)
    (w : InputTableWidget α) : Str :=
  '#' :: w.title ++ '\n' ::
    ('#' :: ((List.range w.tabla.columnCount).map
        (fun i => w.tabla.horizontalHeader.getD i [] ++ ['\t'])).flatten ++
      '\n' ::
        (w.tabla.getData.map (fun row =>
          ((List.range w.tabla.columnCount).map
            (fun j => render (row.getD j default) ++ ['\t'])).flatten ++
              ['\n'])).flatten)

lemma range_map_getD {β γ : Type} (l : List β) (d : β) (f : β → γ) :
    (List.range l.length).map (fun i => f (l.getD i d)) = l.map f := by
  induction l with
  | nil => simp
  | cons x xs ih =>
    rw [List.length_cons, List.range_succ_eq_map, List.map_cons,
      List.map_map]
    simp only [List.getD_cons_zero, Function.comp_def, List.getD_cons_succ,
      List.map_cons]
    rw [ih]

/-- The text written by `save`, in direct form, for a well-formed
table: headers and rows each of length `columnCount`. -/
lemma saveText_eq [Inhabited α] (render : α → Str)
    (w : InputTableWidget α)
    (hh : w.tabla.horizontalHeader.length = w.tabla.columnCount)
    (hr : ∀ row ∈ w.tabla.getData, row.length = w.tabla.columnCount) :
    w.saveText render =
      '#' :: w.title ++ '\n' ::
        ('#' :: (w.tabla.horizontalHeader.map (fun h => h ++ ['\t'])).flatten ++
          '\n' ::
            (w.tabla.getData.map (fun row =>
              ((row.map render).map (fun s => s ++ ['\t'])).flatten ++
                ['\n'])).flatten) := by
  unfold InputTableWidget.saveText
  have h1 : (List.range w.tabla.columnCount).map
      (fun i => w.tabla.horizontalHeader.getD i [] ++ ['\t']) =
      w.tabla.horizontalHeader.map (fun h => h ++ ['\t']) := by
    rw [← hh]
    exact range_map_getD w.tabla.horizontalHeader [] (fun h => h ++ ['\t'])
  have h2 : ∀ row ∈ w.tabla.getData,
      ((List.range w.tabla.columnCount).map
        (fun j => render (row.getD j default) ++ ['\t'])).flatten ++ ['\n'] =
      ((row.map render).map (fun s => s ++ ['\t'])).flatten ++ ['\n'] := by
    intro row hrow
    rw [List.map_map, ← hr row hrow]
    have := range_map_getD row default (fun v => render v ++ ['\t'])
    rw [this]
    rfl
  rw [h1, List.map_congr_left h2]

/-- **C3.** For every widget with a title, `columnCount` headers and
data rows all of width `columnCount`, the text `save` writes is
exactly: line 1 `#` + title; line 2 `#` + each header text followed
by a tab; then one line per data row made of the rendered cells each
followed by a tab. -/
theorem claim_C3 {α : Type} [Inhabited α] (render : α → Str)
    (w : InputTableWidget α)
    (hh : w.tabla.horizontalHeader.length = w.tabla.columnCount)
    (hr : ∀ row ∈ w.tabla.getData, row.length = w.tabla.columnCount) :
    w.saveText render =
      '#' :: w.title ++ '\n' ::
        ('#' :: (w.tabla.horizontalHeader.map (fun h => h ++ ['\t'])).flatten ++
          '\n' ::
            (w.tabla.getData.map (fun row =>
              ((row.map render).map (fun s => s ++ ['\t'])).flatten ++
                ['\n'])).flatten) :=
  saveText_eq render w hh hr

/-- A concrete two-column table over `Nat` cells, used by witnesses. -/
def wNat : InputTableWidget Nat :=
  { columnas := 2
    title := ['t']
    tabla := ⟨2, [['a'], ['b']], [[1, 2], [3, 4]]⟩
    eqSpin := SpinBox.mk0
    labelTcVisible := false
    tcVisible := false }

/-- Python `str` of a natural number. -/
def renderNat (n : Nat) : Str := (Nat.repr n).data

/-- **C3, witness.** The concrete two-column table satisfies the
width hypotheses and `save` writes the stated text for it. -/
theorem claim_C3_witness :
    (wNat.tabla.horizontalHeader.length = wNat.tabla.columnCount ∧
      ∀ row ∈ wNat.tabla.getData, row.length = wNat.tabla.columnCount) ∧
    wNat.saveText renderNat =
      '#' :: wNat.title ++ '\n' ::
        ('#' :: (wNat.tabla.horizontalHeader.map (fun h => h ++ ['\t'])).flatten
          ++ '\n' ::
            (wNat.tabla.getData.map (fun row =>
              ((row.map renderNat).map (fun s => s ++ ['\t'])).flatten ++
                ['\n'])).flatten) :=
  ⟨⟨by decide, by decide⟩, claim_C3 renderNat wNat (by decide) (by decide)⟩

/-! ## Loading: `numpy.loadtxt` and `InputTableWidget.open` -/

/-- Whitespace, the default `numpy.loadtxt` delimiter. -/
def isWS (c : Char) : Bool :=
  c == ' ' || c == '\t' || c == '\n' || c == '\r'

/-- Split a character list into the maximal chunks separated by
characters satisfying `p`; runs of separators yield no empty chunks.
`acc` holds the chunk being read, reversed. -/
def splitChunksAux (p : Char → Bool) : Str → Str → List Str
  | [], acc => if acc = [] then [] else [acc.reverse]
  | c :: cs, acc =>
    if p c then
      if acc = [] then splitChunksAux p cs []
      else acc.reverse :: splitChunksAux p cs []
    else splitChunksAux p cs (c :: acc)

def splitChunks (p : Char → Bool) (s : Str) : List Str :=
  splitChunksAux p s []

/-- `numpy.loadtxt` comment handling: everything from the first `#`
of a line onwards is discarded. -/
def stripComment (l : Str) : Str := l.takeWhile (fun c => c != '#')

/-- Convert each whitespace token of a line with `float` (parameter
`parse`); an unconvertible token raises `ValueError`, whose message
text names the token. -/
def parseTokens (parse : Str → Option α) : List Str → Except Str (List α)
  | [] => .ok []
  | t :: ts =>
    match parse t with
    | some v =>
      match parseTokens parse ts with
      | .ok vs => .ok (v :: vs)
      | .error e => .error e
    | none => .error ("could not convert string to float: ".data ++ t)

/-- Convert every tokenised line in order, propagating the first
`ValueError`. -/
def parseRows (parse : Str → Option α) :
    List (List Str) → Except Str (List (List α))
  | [] => .ok []
  | r :: rs =>
    match parseTokens parse r with
    | .error e => .error e
    | .ok row =>
      match parseRows parse rs with
      | .error e => .error e
      | .ok rest => .ok (row :: rest)

/-- Model of `numpy.loadtxt` on the full file contents, from its
documented behaviour: split into lines, discard the `#`-comment part
of each line, tokenise the rest on whitespace runs, skip lines left
with no tokens, convert every token with `float` (parameter `parse`),
and fail with `ValueError` on an unconvertible token or when the data
lines do not all have the same number of columns. -/
def loadtxtModel (parse : Str → Option α) (contents : Str) :
    Except Str (List (List α)) :=
  match parseRows parse (((splitChunks (fun c => c == '\n') contents).map
      (fun l => splitChunks isWS (stripComment l))).filter
        (fun l => l ≠ [])) with
  | .error e => .error e
  | .ok rows =>
    if rows.all (fun r => r.length == (rows.headD []).length) then .ok rows
    else .error "could not determine the number of columns".data

/-- One message box shown with `QMessageBox.critical`: its window
title and its text. -/
structure MsgBox where
  title : Str
  msg : Str
  deriving Repr, DecidableEq

/-- `InputTableWidget.delete`: `setRowCount(0)`, `clearContents`,
then `addRow` — the table is left without data. -/
def InputTableWidget.delete (w : InputTableWidget α) : InputTableWidget α :=
  { w with tabla := w.tabla.clearAll.addRow }

/-- `InputTableWidget.open`.  `fname` is the file dialog's result
(`none` models a cancelled dialog, whose empty `fname` is falsy);
`contentsOf` gives the contents of the selected file.  When
`loadtxt` succeeds the table is cleared (`self.delete()`) and
refilled (`self.tabla.setData(data)`); a `ValueError` from `loadtxt`
is caught and shown in a critical message box titled "Failed to load
file" whose text is the file name, a newline and the error's first
argument.  The returned pair is the new widget state and the message
box displayed, if any; the function is total, so no exception escapes
`open`. -/
def InputTableWidget.openFile (parse : Str → Option α)
    (w : InputTableWidget α) (fname : Option Str) (contentsOf : Str → Str) :
    InputTableWidget α × Option MsgBox :=
  match fname with
  | none => (w, none)
  | some f =>
    match loadtxtModel parse (contentsOf f) with
    | .ok data => ({ w.delete with tabla := w.delete.tabla.setData data }, none)
    | .error er => (w, some ⟨"Failed to load file".data, f ++ '\n' :: er⟩)

/-- **C5.** For every selected file whose contents `loadtxt` rejects
with a `ValueError`, `open` shows a critical message box whose text
is the file name followed by the loader's error text (so it contains
both) and the widget is returned unchanged — no exception propagates;
for every file that parses successfully, no message is shown and the
table's previous contents are replaced by the parsed data. -/
theorem claim_C5 {α : Type} (parse : Str → Option α)
    (w : InputTableWidget α) (f : Str) (contentsOf : Str → Str) :
    (∀ er, loadtxtModel parse (contentsOf f) = .error er →
      w.openFile parse (some f) contentsOf =
        (w, some ⟨"Failed to load file".data, f ++ '\n' :: er⟩))
    ∧ (∀ d, loadtxtModel parse (contentsOf f) = .ok d →
      (w.openFile parse (some f) contentsOf).2 = none ∧
        ((w.openFile parse (some f) contentsOf).1).tabla.getData = d) := by
  constructor
  · intro er h
    simp [InputTableWidget.openFile, h]
  · intro d h
    simp [InputTableWidget.openFile, h, Tabla.getData, Tabla.setData]

/-- Decimal digit of a character, if any. -/
def digitVal (c : Char) : Option Nat :=
  if '0' ≤ c ∧ c ≤ '9' then some (c.toNat - '0'.toNat) else none

def parseNatAux : Str → Nat → Option Nat
  | [], acc => some acc
  | c :: cs, acc =>
    match digitVal c with
    | some d => parseNatAux cs (acc * 10 + d)
    | none => none

/-- Parse of an unsigned decimal token, the `Nat` instance of the
loader's `float` conversion used by concrete witnesses. -/
def parseNat (s : Str) : Option Nat :=
  if s = [] then none else parseNatAux s 0

/-- **C5, witness.** Concrete runs: a file holding `abc` makes
`loadtxt` fail and `open` shows the message box with the file name
and the error text; a file holding `1 2` parses and replaces the
table data with `[[1, 2]]`. -/
theorem claim_C5_witness :
    (wNat.openFile parseNat (some "f.txt".data) (fun _ => "abc".data) =
      (wNat, some ⟨"Failed to load file".data,
        "f.txt".data ++ '\n' ::
          ("could not convert string to float: ".data ++ "abc".data)⟩))
    ∧ ((wNat.openFile parseNat (some "f.txt".data)
          (fun _ => "1 2".data)).2 = none ∧
        ((wNat.openFile parseNat (some "f.txt".data)
          (fun _ => "1 2".data)).1).tabla.getData = [[1, 2]]) := by
  constructor
  · exact (claim_C5 parseNat wNat "f.txt".data (fun _ => "abc".data)).1
      ("could not convert string to float: ".data ++ "abc".data) (by rfl)
  · exact (claim_C5 parseNat wNat "f.txt".data (fun _ => "1 2".data)).2
      [[1, 2]] (by rfl)

/-- **C8.** A cancelled file dialog, and a selected file on which
`loadtxt` raises a `ValueError`, both leave the widget — in
particular the table contents — exactly as before the call: the
clear-and-replace happens only after a successful parse. -/
theorem claim_C8 {α : Type} (parse : Str → Option α)
    (w : InputTableWidget α) (contentsOf : Str → Str) :
    w.openFile parse none contentsOf = (w, none)
    ∧ (∀ f er, loadtxtModel parse (contentsOf f) = .error er →
        (w.openFile parse (some f) contentsOf).1 = w) := by
  constructor
  · rfl
  · intro f er h
    simp [InputTableWidget.openFile, h]

/-- **C8, witness.** Concrete run: on the unparseable file holding
`abc` the widget is unchanged, and a cancelled dialog changes
nothing. -/
theorem claim_C8_witness :
    wNat.openFile parseNat none (fun _ => "abc".data) = (wNat, none)
    ∧ (wNat.openFile parseNat (some "f.txt".data)
        (fun _ => "abc".data)).1 = wNat := by
  have h := claim_C8 parseNat wNat (fun _ => "abc".data)
  exact ⟨h.1, h.2 "f.txt".data
    ("could not convert string to float: ".data ++ "abc".data) (by rfl)⟩

/-! ## Round trip: `save` then `open` -/

lemma splitChunksAux_cons_pos (p : Char → Bool) (c : Char) (cs acc : Str)
    (h : p c = true) :
    splitChunksAux p (c :: cs) acc =
      if acc = [] then splitChunksAux p cs []
      else acc.reverse :: splitChunksAux p cs [] := by
  simp [splitChunksAux, h]

lemma splitChunksAux_cons_neg (p : Char → Bool) (c : Char) (cs acc : Str)
    (h : p c = false) :
    splitChunksAux p (c :: cs) acc = splitChunksAux p cs (c :: acc) := by
  simp [splitChunksAux, h]

lemma splitChunksAux_token (p : Char → Bool) (sep : Char) (hsep : p sep = true)
    (rest : Str) (tok : Str) :
    ∀ acc : Str, (∀ c ∈ tok, p c = false) →
      splitChunksAux p (tok ++ sep :: rest) acc =
        if acc.reverse ++ tok = [] then splitChunks p rest
        else (acc.reverse ++ tok) :: splitChunks p rest := by
  induction tok with
  | nil =>
    intro acc _
    rw [List.nil_append, splitChunksAux_cons_pos p sep rest acc hsep]
    by_cases h : acc = [] <;> simp [h, splitChunks]
  | cons x xs ih =>
    intro acc htok
    have hx : p x = false := htok x (by simp)
    rw [List.cons_append, splitChunksAux_cons_neg p x _ acc hx,
      ih (x :: acc) (fun c hc => htok c (by simp [hc]))]
    have h1 : (x :: acc).reverse ++ xs = acc.reverse ++ x :: xs := by simp
    rw [h1]

/-- Splitting the concatenation of non-empty separator-free chunks,
each followed by one separator, recovers the chunks. -/
lemma splitChunks_flatten (p : Char → Bool) (sep : Char) (hsep : p sep = true)
    (chunks : List Str)
    (h : ∀ t ∈ chunks, t ≠ [] ∧ ∀ c ∈ t, p c = false) :
    splitChunks p ((chunks.map (fun t => t ++ [sep])).flatten) = chunks := by
  induction chunks with
  | nil => simp [splitChunks, splitChunksAux]
  | cons t ts ih =>
    have ht := h t (by simp)
    have hjoin : ((t :: ts).map (fun t => t ++ [sep])).flatten =
        t ++ sep :: (ts.map (fun t => t ++ [sep])).flatten := by
      simp
    rw [hjoin, splitChunks,
      splitChunksAux_token p sep hsep _ t [] ht.2]
    simp [ht.1, ih (fun u hu => h u (by simp [hu]))]

lemma getD_mem_or_default {β : Type} (l : List β) (d : β) (i : Nat) :
    l.getD i d ∈ l ∨ l.getD i d = d := by
  rcases Nat.lt_or_ge i l.length with h | h
  · left
    rw [List.getD_eq_getElem l d h]
    exact List.getElem_mem h
  · right
    exact List.getD_eq_default l d h

lemma stripComment_hash (l : Str) : stripComment ('#' :: l) = [] := by
  simp [stripComment]

lemma stripComment_of_no_hash (l : Str) (h : ∀ c ∈ l, c ≠ '#') :
    stripComment l = l := by
  rw [stripComment, List.takeWhile_eq_self_iff]
  intro c hc
  simp [h c hc]

lemma splitChunks_nil (p : Char → Bool) : splitChunks p [] = [] := by
  simp [splitChunks, splitChunksAux]

lemma parseTokens_map {α : Type} (parse : Str → Option α) (render : α → Str)
    (row : List α) (h : ∀ v ∈ row, parse (render v) = some v) :
    parseTokens parse (row.map render) = .ok row := by
  induction row with
  | nil => rfl
  | cons v vs ih =>
    simp only [List.map_cons, parseTokens, h v (by simp),
      ih (fun u hu => h u (by simp [hu]))]

lemma parseRows_map {α : Type} (parse : Str → Option α) (render : α → Str)
    (rows : List (List α))
    (h : ∀ r ∈ rows, ∀ v ∈ r, parse (render v) = some v) :
    parseRows parse (rows.map (fun r => r.map render)) = .ok rows := by
  induction rows with
  | nil => rfl
  | cons r rs ih =>
    simp only [List.map_cons, parseRows,
      parseTokens_map parse render r (h r (by simp)),
      ih (fun u hu => h u (by simp [hu]))]

lemma all_same_length {α : Type} (rows : List (List α)) (n : Nat)
    (h : ∀ r ∈ rows, r.length = n) :
    rows.all (fun r => r.length == (rows.headD []).length) = true := by
  cases rows with
  | nil => rfl
  | cons r rs =>
    rw [List.all_eq_true]
    intro r' hr'
    simp only [List.headD_cons, beq_iff_eq]
    rw [h r' hr', h r (by simp)]

/-- The text written by `save`, as the flattening of its lines, each
line followed by one newline. -/
lemma saveText_lines [Inhabited α] (render : α → Str)
    (w : InputTableWidget α)
    (hr : ∀ row ∈ w.tabla.getData, row.length = w.tabla.columnCount) :
    w.saveText render =
      ((('#' :: w.title) ::
        ('#' :: ((List.range w.tabla.columnCount).map
          (fun i => w.tabla.horizontalHeader.getD i [] ++ ['\t'])).flatten) ::
        w.tabla.getData.map (fun row =>
          ((row.map render).map (fun s => s ++ ['\t'])).flatten)).map
            (fun l => l ++ ['\n'])).flatten := by
  unfold InputTableWidget.saveText
  have h2 : ∀ row ∈ w.tabla.getData,
      ((List.range w.tabla.columnCount).map
        (fun j => render (row.getD j default) ++ ['\t'])).flatten ++ ['\n'] =
      ((row.map render).map (fun s => s ++ ['\t'])).flatten ++ ['\n'] := by
    intro row hrow
    rw [List.map_map, ← hr row hrow]
    rw [range_map_getD row default (fun v => render v ++ ['\t'])]
    rfl
  rw [List.map_congr_left h2]
  simp [List.map_map, Function.comp_def]

lemma ne_nl_of_not_ws {c : Char} (h : isWS c = false) : c ≠ '\n' := by
  intro e
  subst e
  simp [isWS] at h

lemma filter_ne_nil_cons_nil (L : List (List Str)) :
    (([] : List Str) :: ([] : List Str) :: L).filter
        (fun l => l ≠ []) =
      L.filter (fun l => l ≠ []) := by
  simp [List.filter]

lemma filter_ne_nil_of_all (L : List (List Str)) (h : ∀ l ∈ L, l ≠ []) :
    L.filter (fun l => l ≠ []) = L := by
  rw [List.filter_eq_self]
  intro a ha
  simpa using h a ha

/-- Reading back with `loadtxt` the text written by `save` recovers
the table data: the two leading `#` lines are dropped as comments and
each data line tokenises into the row's rendered cells, which convert
back to the cell values. -/
lemma loadtxt_saveText [Inhabited α] (render : α → Str)
    (parse : Str → Option α) (w : InputTableWidget α)
    (htitle : ∀ c ∈ w.title, c ≠ '\n')
    (hhdr : ∀ h ∈ w.tabla.horizontalHeader, ∀ c ∈ h, c ≠ '\n')
    (hcols : 1 ≤ w.tabla.columnCount)
    (hlen : ∀ row ∈ w.tabla.getData, row.length = w.tabla.columnCount)
    (hcell : ∀ row ∈ w.tabla.getData, ∀ v ∈ row,
      parse (render v) = some v ∧ render v ≠ [] ∧
        ∀ c ∈ render v, isWS c = false ∧ c ≠ '#') :
    loadtxtModel parse (w.saveText render) = .ok w.tabla.getData := by
  have hrow_ne : ∀ row ∈ w.tabla.getData, row ≠ [] := by
    intro row hrow hnil
    have := hlen row hrow
    rw [hnil] at this
    simp at this
    omega
  have hsplit : splitChunks (fun c => c == '\n') (w.saveText render) =
      ('#' :: w.title) ::
        ('#' :: ((List.range w.tabla.columnCount).map
          (fun i => w.tabla.horizontalHeader.getD i [] ++ ['\t'])).flatten) ::
        w.tabla.getData.map (fun row =>
          ((row.map render).map (fun s => s ++ ['\t'])).flatten) := by
    rw [saveText_lines render w hlen]
    apply splitChunks_flatten (fun c => c == '\n') '\n' (by decide)
    intro t ht
    simp only [List.mem_cons, List.mem_map] at ht
    rcases ht with h1 | h2 | ⟨row, hrow, hline⟩
    · subst h1
      refine ⟨by simp, ?_⟩
      intro c hc
      rcases List.mem_cons.mp hc with h | h
      · subst h; decide
      · simp [htitle c h]
    · subst h2
      refine ⟨by simp, ?_⟩
      intro c hc
      rcases List.mem_cons.mp hc with h | h
      · subst h; decide
      · rw [List.mem_flatten] at h
        obtain ⟨l, hl, hcl⟩ := h
        rw [List.mem_map] at hl
        obtain ⟨i, _, hi⟩ := hl
        subst hi
        rcases List.mem_append.mp hcl with h | h
        · rcases getD_mem_or_default w.tabla.horizontalHeader [] i with hm | hd
          · simp [hhdr _ hm c h]
          · rw [hd] at h
            simp at h
        · simp at h
          subst h
          decide
    · subst hline
      constructor
      · intro hnil
        rw [List.flatten_eq_nil_iff] at hnil
        obtain ⟨v, hv⟩ := List.exists_mem_of_ne_nil row (hrow_ne row hrow)
        have : render v ++ ['\t'] = [] := by
          apply hnil
          simp only [List.mem_map, List.map_map]
          exact ⟨v, hv, rfl⟩
        simp at this
      · intro c hc
        rw [List.mem_flatten] at hc
        obtain ⟨l, hl, hcl⟩ := hc
        simp only [List.map_map, List.mem_map, Function.comp_def] at hl
        obtain ⟨v, hv, hveq⟩ := hl
        subst hveq
        rcases List.mem_append.mp hcl with h | h
        · simp [ne_nl_of_not_ws ((hcell row hrow v hv).2.2 c h).1]
        · simp at h
          subst h
          decide
  have hmap : ∀ row ∈ w.tabla.getData,
      splitChunks isWS (stripComment
        (((row.map render).map (fun s => s ++ ['\t'])).flatten)) =
      row.map render := by
    intro row hrow
    have hnohash : ∀ c ∈ ((row.map render).map
        (fun s => s ++ ['\t'])).flatten, c ≠ '#' := by
      intro c hc
      rw [List.mem_flatten] at hc
      obtain ⟨l, hl, hcl⟩ := hc
      simp only [List.map_map, List.mem_map, Function.comp_def] at hl
      obtain ⟨v, hv, hveq⟩ := hl
      subst hveq
      rcases List.mem_append.mp hcl with h | h
      · exact ((hcell row hrow v hv).2.2 c h).2
      · simp at h
        subst h
        decide
    rw [stripComment_of_no_hash _ hnohash]
    apply splitChunks_flatten isWS '\t' (by decide)
    intro s hs
    rw [List.mem_map] at hs
    obtain ⟨v, hv, hveq⟩ := hs
    subst hveq
    exact ⟨(hcell row hrow v hv).2.1,
      fun c hc => ((hcell row hrow v hv).2.2 c hc).1⟩
  have htok : ((splitChunks (fun c => c == '\n') (w.saveText render)).map
      (fun l => splitChunks isWS (stripComment l))).filter
        (fun l => l ≠ []) =
      w.tabla.getData.map (fun row => row.map render) := by
    rw [hsplit]
    simp only [List.map_cons, stripComment_hash, splitChunks_nil]
    rw [List.map_map]
    have hcomp : w.tabla.getData.map
        ((fun l => splitChunks isWS (stripComment l)) ∘
          (fun row => ((row.map render).map (fun s => s ++ ['\t'])).flatten))
        = w.tabla.getData.map (fun row => row.map render) := by
      apply List.map_congr_left
      intro row hrow
      simp only [Function.comp_def]
      exact hmap row hrow
    rw [hcomp, filter_ne_nil_cons_nil, filter_ne_nil_of_all]
    intro l hl
    rw [List.mem_map] at hl
    obtain ⟨row, hrow, hleq⟩ := hl
    subst hleq
    simp [hrow_ne row hrow]
  unfold loadtxtModel
  rw [htok, parseRows_map parse render _
    (fun r hr' v hv => (hcell r hr' v hv).1)]
  simp only [all_same_length w.tabla.getData w.tabla.columnCount hlen,
    if_true]

/-- **C4.** Save-then-open round-trips the table data: for every
widget whose title and headers hold no newline, whose data rows all
have `columnCount ≥ 1` cells, and whose cells render to non-empty
whitespace-free, `#`-free tokens that parse back to themselves (the
behaviour of `str`/`float` on finite numeric values), writing the
table with `save` and reading the resulting file back with `open`
leaves the table holding the same values as before. -/
theorem claim_C4 {α : Type} [Inhabited α] (render : α → Str)
    (parse : Str → Option α) (w : InputTableWidget α) (f : Str)
    (htitle : ∀ c ∈ w.title, c ≠ '\n')
    (hhdr : ∀ h ∈ w.tabla.horizontalHeader, ∀ c ∈ h, c ≠ '\n')
    (hcols : 1 ≤ w.tabla.columnCount)
    (hlen : ∀ row ∈ w.tabla.getData, row.length = w.tabla.columnCount)
    (hcell : ∀ row ∈ w.tabla.getData, ∀ v ∈ row,
      parse (render v) = some v ∧ render v ≠ [] ∧
        ∀ c ∈ render v, isWS c = false ∧ c ≠ '#') :
    ((w.openFile parse (some f)
        (fun _ => w.saveText render)).1).tabla.getData =
      w.tabla.getData := by
  have hload : loadtxtModel parse (w.saveText render) =
      .ok w.tabla.getData :=
    loadtxt_saveText render parse w htitle hhdr hcols hlen hcell
  simp [InputTableWidget.openFile, hload, Tabla.getData, Tabla.setData]

/-- **C4, witness.** Concrete round trip: the two-column table with
rows `[[1, 2], [3, 4]]` satisfies every hypothesis with decimal
rendering and parsing, and comes back unchanged from its own saved
file. -/
theorem claim_C4_witness :
    ((∀ c ∈ wNat.title, c ≠ '\n') ∧
      (∀ h ∈ wNat.tabla.horizontalHeader, ∀ c ∈ h, c ≠ '\n') ∧
      1 ≤ wNat.tabla.columnCount ∧
      (∀ row ∈ wNat.tabla.getData,
        row.length = wNat.tabla.columnCount) ∧
      (∀ row ∈ wNat.tabla.getData, ∀ v ∈ row,
        parseNat (renderNat v) = some v ∧ renderNat v ≠ [] ∧
          ∀ c ∈ renderNat v, isWS c = false ∧ c ≠ '#')) ∧
    ((wNat.openFile parseNat (some "f.txt".data)
        (fun _ => wNat.saveText renderNat)).1).tabla.getData =
      wNat.tabla.getData :=
  ⟨⟨by decide, by decide, by decide, by decide, by decide⟩,
    claim_C4 renderNat parseNat wNat "f.txt".data (by decide) (by decide)
      (by decide) (by decide) (by decide)⟩

/-! ## `InputTableDialog` -/

/-- Slots of `InputTableDialog` that its signals connect to. -/
inductive DlgSlot where
  | accept
  | reject
  | ayuda
  deriving Repr, DecidableEq

/-- State of `InputTableDialog`: every `setWindowTitle` call appends
to `titleHistory` (the current window title is the last entry), plus
the help file path, the buttons present in the button box and the
signal connections made. -/
structure InputTableDialog where
  titleHistory : List String
  helpFile : String
  hasOkButton : Bool
  hasCancelButton : Bool
  hasHelpButton : Bool
  acceptedSlot : Option DlgSlot
  rejectedSlot : Option DlgSlot
  helpRequestedSlot : Option DlgSlot
  deriving Repr, DecidableEq

/-- `QApplication.translate` with no translator installed returns the
source text. -/
def qtTranslate (_context source : String) : String := source

/-- `InputTableDialog.__init__(columnas, help, helpFile, **kwargs)`:
`setWindowTitle(title)` with the `title` keyword argument, then
`setWindowTitle(translate("Moody diagram configuration"))`; a button
box with Cancel and Ok; when `help` is true a Help button is added
and `helpRequested` is connected to `ayuda`; finally `accepted` is
connected to `accept` and `rejected` to `reject`. -/
def InputTableDialog.init (help : Bool) (helpFile : String)
    (title : String) : InputTableDialog :=
  let d0 : InputTableDialog :=
    { titleHistory := []
      helpFile := helpFile
      hasOkButton := false
      hasCancelButton := false
      hasHelpButton := false
      acceptedSlot := none
      rejectedSlot := none
      helpRequestedSlot := none }
  let d1 := { d0 with titleHistory := d0.titleHistory ++ [title] }
  let d2 := { d1 with titleHistory := d1.titleHistory ++
    [qtTranslate "pychemqt" "Moody diagram configuration"] }
  let d3 := { d2 with hasCancelButton := true, hasOkButton := true }
  let d4 := if help then
    { d3 with hasHelpButton := true, helpRequestedSlot := some .ayuda }
    else d3
  { d4 with acceptedSlot := some .accept, rejectedSlot := some .reject }

/-- The dialog's current window title: the last `setWindowTitle`. -/
def InputTableDialog.windowTitle (d : InputTableDialog) : String :=
  (d.titleHistory.getLast?).getD ""

/-- `InputTableDialog.ayuda`: the URL opened with
`QDesktopServices.openUrl` is the configured help file path. -/
def InputTableDialog.ayuda (d : InputTableDialog) : String := d.helpFile

/-- **C7.** Every constructed `InputTableDialog` has an OK button
with `accepted` connected to `accept` and a Cancel button with
`rejected` connected to `reject`; it has a Help button exactly when
the `help` argument is true, in which case `helpRequested` is
connected to `ayuda`, which opens the configured `helpFile` URL. -/
theorem claim_C7 (help : Bool) (helpFile title : String) :
    (InputTableDialog.init help helpFile title).hasOkButton = true ∧
    (InputTableDialog.init help helpFile title).acceptedSlot =
      some DlgSlot.accept ∧
    (InputTableDialog.init help helpFile title).hasCancelButton = true ∧
    (InputTableDialog.init help helpFile title).rejectedSlot =
      some DlgSlot.reject ∧
    (InputTableDialog.init help helpFile title).hasHelpButton = help ∧
    (InputTableDialog.init help helpFile title).helpRequestedSlot =
      (if help then some DlgSlot.ayuda else none) ∧
    (InputTableDialog.init help helpFile title).ayuda = helpFile := by
  cases help <;>
    simp [InputTableDialog.init, InputTableDialog.ayuda]

/-- **C10.** The title history of every constructed dialog is the
caller-supplied title followed by the translated string "Moody
diagram configuration", so the final window title is the latter
regardless of the `title` keyword argument. -/
theorem claim_C10 (help : Bool) (helpFile title : String) :
    (InputTableDialog.init help helpFile title).titleHistory =
      [title, qtTranslate "pychemqt" "Moody diagram configuration"] ∧
    (InputTableDialog.init help helpFile title).windowTitle =
      qtTranslate "pychemqt" "Moody diagram configuration" := by
  cases help <;>
    simp [InputTableDialog.init, InputTableDialog.windowTitle]

/-- **C9.** Evaluation of the code at the failing input: after
`eqDIPPR(1).setValue(5)`, the `value` property is the bound method
(a callable of type `Unit → Int` whose invocation yields 5), not the
integer 5 itself — the source returns `self.eqDIPPR.value` without
call parentheses. -/
theorem claim_C9 :
    ((EqDIPPR.init 1).setValue 5).value = (fun _ => (5 : Int)) := by
  funext u
  rfl
